import Mathlib

/-!
Classificados dos Amigos: the listing store and its queries.

A shallow embedding of `classificados-backend/server.js`: the JSON file that
holds the products (`produtos.json`), the two functions that read and write it
(`lerProdutos`, `salvarProdutos`) and the five routes that work on it

* `GET /api/produtos`              (`getProdutos`)
* `GET /api/produtos/:id`          (`getProdutoPorId`)
* `POST /api/produtos`             (`postProdutos`)
* `PUT /api/produtos/:id/vendido`  (`putVendido`)
* `GET /api/buscar`                (`getBuscar`)

What the routes take from the JavaScript runtime is a parameter of the model:
the identifier returned by `uuidv4()`, the clock read by `new Date()`, whether
`fs.writeFile` succeeded, and the two built-ins `String.prototype.toLowerCase`
and `parseFloat` (structure `Builtins`).  `String.prototype.trim`,
`String.prototype.includes` and the stable `Array.prototype.sort` are modelled
in full.  A text is a sequence of Unicode code points.  A field of a request
body is any value that a multipart form or a JSON body can hold (`Valor`), and
a record of the file has the fields and the types that the routes write.
-/

namespace Classificados

/-! ## JavaScript values -/

/-- The value of a JavaScript number as far as the store can tell it apart:
a finite value (a double is a rational; `-0` is identified with `0`), `NaN`,
or one of the two infinities. -/
inductive JsNumber where
  | num (x : ℚ)
  | nan
  | infinity (negative : Bool)
  deriving DecidableEq, Repr

/-- The JSON text `JSON.stringify` writes for a number: a finite number is
written as itself, `NaN` and the infinities are written as `null` (here
`none`). -/
def jsonNumber : JsNumber → Option ℚ
  | .num x => some x
  | .nan => none
  | .infinity _ => none

/-- A value that a field of `req.body` can hold: `undefined` for a field that
is not there, and the values of a multipart form (texts) or of a JSON body
(`null`, booleans, finite numbers, texts; `outro` is an array or an object,
given by its JSON text). -/
inductive Valor where
  | undefined
  | null
  | bool (b : Bool)
  | num (x : ℚ)
  | str (s : String)
  | outro (json : String)
  deriving DecidableEq, Repr

/-- The built-ins of the runtime that the routes call and that are not modelled
in full: `s.toLowerCase()` on a text, and `parseFloat(v)`, which turns its
argument into a text and reads a number at its front. -/
structure Builtins where
  toLowerCase : String → String
  parseFloat : Valor → JsNumber

/-- The code points that `String.prototype.trim` strips: ECMAScript
`WhiteSpace` (TAB, VT, FF, SP, NBSP, ZWNBSP and the category `Zs`) and
`LineTerminator` (LF, CR, LS, PS). -/
def isWhiteSpace (c : Char) : Bool :=
  let n := c.toNat
  n = 0x09 || n = 0x0A || n = 0x0B || n = 0x0C || n = 0x0D || n = 0x20 ||
  n = 0xA0 || n = 0x1680 || (0x2000 ≤ n && n ≤ 0x200A) || n = 0x2028 ||
  n = 0x2029 || n = 0x202F || n = 0x205F || n = 0x3000 || n = 0xFEFF

/-- The method `s.trim()`: white space removed from both ends. -/
def trim (s : String) : String :=
  String.mk (((s.data.dropWhile isWhiteSpace).reverse.dropWhile isWhiteSpace).reverse)

/-- The method `s.includes(t)`: `t` occurs in `s` as a run of consecutive
characters, starting at some position of `s`. -/
def includes (s t : String) : Bool :=
  s.data.tails.any (fun u => t.data.isPrefixOf u)

/-- JavaScript truthiness of a query parameter, a string or `undefined` (here
`none`): only `undefined` and the empty string are falsy. -/
def truthy : Option String → Bool
  | none => false
  | some s => s != ""

/-- JavaScript truthiness of a field of the body: `undefined`, `null`, `false`,
`0` and the empty text are falsy, every other value is truthy. -/
def Valor.truthy : Valor → Bool
  | .undefined => false
  | .null => false
  | .bool b => b
  | .num x => x != 0
  | .str s => s != ""
  | .outro _ => true

/-- The expression `v || d` for a field `v` of the body and a text `d`. -/
def Valor.orElse (v : Valor) (d : String) : Valor :=
  if v.truthy then v else .str d

/-- The call `v.trim()` on a field of the body: the trimmed text when `v` is a
text; `none` when the call throws a `TypeError`, because a truthy value of
another type has no method `trim`. -/
def Valor.trim : Valor → Option String
  | .str s => some (Classificados.trim s)
  | _ => none

/-- The method `xs.findIndex(p)`: the first index whose element satisfies `p`;
`none` stands for the result `-1`. -/
def findIndex {α : Type} (p : α → Bool) : List α → Option Nat
  | [] => none
  | a :: l => if p a then some 0 else (findIndex p l).map (· + 1)

/-! ## The data model -/

/-- One product as a JSON record, which is how the file `produtos.json` and
the answers of the routes hold it.  `preco` is a JSON number or `null` (here
`none`); `categoria`, `whatsapp` and `condicao` are the values the create
route copies from the body.  `criadoEm` and `vendidoEm` hold the time value (milliseconds since
the epoch) of the ISO string the record stores, which is what
`new Date(p.criadoEm)` evaluates to; `vendidoEm = none` is a record without
that field, and `ativo = none` a record without the field `ativo`.  A record
whose `criadoEm` is not a date is not modelled: on it the comparator of the
sort is `NaN` and the order of the sorted array is left to the runtime. -/
structure Produto where
  id : String
  titulo : String
  descricao : String
  preco : Option ℚ
  categoria : Valor
  vendedor : String
  whatsapp : Valor
  condicao : Valor
  imagens : List String
  criadoEm : Int
  ativo : Option Bool
  vendidoEm : Option Int
  deriving DecidableEq, Repr

/-- The state of the file `DB_FILE`: `none` when it does not exist (or cannot
be read or parsed), otherwise the array `JSON.parse` reads from it. -/
abbrev DbFile := Option (List Produto)

/-- The body and files of a `POST /api/produtos` request: the fields that the
route takes from `req.body`, and `files`, which lists `file.filename` of each
uploaded image (`none` when `req.files` is undefined, as it is for a JSON
body). -/
structure Requisicao where
  titulo : Valor
  descricao : Valor
  preco : Valor
  categoria : Valor
  vendedor : Valor
  whatsapp : Valor
  condicao : Valor
  files : Option (List String)
  deriving DecidableEq, Repr

/-- The answer of a route: `res.status(status).json(body)` for a success, or
the status of an answer whose body is an error message. -/
inductive Resposta (α : Type) where
  | json (status : Nat) (body : α)
  | erro (status : Nat)
  deriving DecidableEq, Repr

/-! ## Reading and writing the file -/

/-- The function `lerProdutos`: the parsed content of the file, or the empty
array when reading or parsing throws. -/
def lerProdutos (db : DbFile) : List Produto :=
  match db with
  | some produtos => produtos
  | none => []

/-- The function `salvarProdutos`: when `fs.writeFile` succeeds (`gravou`) the
file holds the serialised array and the result is `true`; when it throws the
result is `false` (the file is then taken to be as before). -/
def salvarProdutos (gravou : Bool) (db : DbFile) (produtos : List Produto) : DbFile × Bool :=
  if gravou then (some produtos, true) else (db, false)

/-! ## The routes -/

/-- The comparator `(a, b) => new Date(b.criadoEm) - new Date(a.criadoEm)`. -/
def compararData (a b : Produto) : Int :=
  b.criadoEm - a.criadoEm

/-- The comparator does not ask for `b` to come before `a`: its value on
`(a, b)` is not positive. -/
def naoDepois (a b : Produto) : Prop :=
  compararData a b ≤ 0

instance : DecidableRel naoDepois :=
  fun a b => inferInstanceAs (Decidable (compararData a b ≤ 0))

instance : IsTotal Produto naoDepois :=
  ⟨fun a b => by unfold naoDepois compararData; omega⟩

instance : IsTrans Produto naoDepois :=
  ⟨fun a b c => by unfold naoDepois compararData; omega⟩

/-- The method `xs.sort(compararData)`.  `Array.prototype.sort` is stable and
leaves `a` before `b` unless the comparator is positive on `(a, b)`; for a
comparator that is a difference of numbers the sorted array is determined by
that, and it is computed here by insertion. -/
def sortPorData (produtos : List Produto) : List Produto :=
  produtos.insertionSort naoDepois

/-- The filter `p => p.ativo !== false`. -/
def estaAtivo (p : Produto) : Bool :=
  p.ativo != some false

/-- The body of `GET /api/produtos` on the array read from the file. -/
def produtosAtivos (produtos : List Produto) : List Produto :=
  sortPorData (produtos.filter estaAtivo)

/-- The route `GET /api/produtos`. -/
def getProdutos (db : DbFile) : Resposta (List Produto) :=
  .json 200 (produtosAtivos (lerProdutos db))

/-- The route `GET /api/produtos/:id`. -/
def getProdutoPorId (db : DbFile) (id : String) : Resposta Produto :=
  match (lerProdutos db).find? (fun p => p.id == id) with
  | none => .erro 404
  | some produto => if produto.ativo == some false then .erro 404 else .json 200 produto

/-- The object `novoProduto` that `POST /api/produtos` builds from a request
that passed the validation, as the JSON record that the answer and the file
hold: the number `parseFloat(preco)` is written by `JSON.stringify`.  The
result is `none` when one of the three calls of `trim` throws. -/
def novoProduto (b : Builtins) (uuid : String) (agora : Int) (req : Requisicao) :
    Option Produto :=
  match req.titulo.trim, req.descricao.trim, req.vendedor.trim with
  | some titulo, some descricao, some vendedor =>
    some
      { id := uuid
        titulo := titulo
        descricao := descricao
        preco := jsonNumber (b.parseFloat req.preco)
        categoria := req.categoria.orElse "outros"
        vendedor := vendedor
        whatsapp := req.whatsapp.orElse ""
        condicao := req.condicao.orElse "usado"
        imagens := match req.files with
          | some files => files.map (fun filename => "/uploads/" ++ filename)
          | none => []
        criadoEm := agora
        ativo := some true
        vendidoEm := none }
  | _, _, _ => none

/-- The test `!titulo || !descricao || !preco || !vendedor` of the basic
validations. -/
def faltaCampo (req : Requisicao) : Bool :=
  !req.titulo.truthy || !req.descricao.truthy || !req.preco.truthy || !req.vendedor.truthy

/-- The route `POST /api/produtos`, after the upload middleware: `uuid` is the
value of `uuidv4()`, `agora` the clock, `gravou` whether the write succeeds.
The result is the new state of the file and the answer; an exception thrown
while `novoProduto` is built is caught and answered 500. -/
def postProdutos (b : Builtins) (uuid : String) (agora : Int) (gravou : Bool)
    (db : DbFile) (req : Requisicao) : DbFile × Resposta Produto :=
  if faltaCampo req then
    (db, .erro 400)
  else
    match novoProduto b uuid agora req with
    | none => (db, .erro 500)
    | some novo =>
      let produtos := lerProdutos db ++ [novo]
      let (db', sucesso) := salvarProdutos gravou db produtos
      if sucesso then (db', .json 201 novo) else (db', .erro 500)

/-- The two assignments `produtos[index].ativo = false` and
`produtos[index].vendidoEm = new Date().toISOString()`. -/
def marcarVendido (agora : Int) (p : Produto) : Produto :=
  { p with ativo := some false, vendidoEm := some agora }

/-- The route `PUT /api/produtos/:id/vendido`; the body of the success answer
is the message, here `()`. -/
def putVendido (agora : Int) (gravou : Bool) (db : DbFile) (id : String) :
    DbFile × Resposta Unit :=
  let produtos := lerProdutos db
  match findIndex (fun p => p.id == id) produtos with
  | none => (db, .erro 404)
  | some index =>
    let produtos := produtos.modify (marcarVendido agora) index
    let (db', sucesso) := salvarProdutos gravou db produtos
    if sucesso then (db', .json 200 ()) else (db', .erro 500)

/-- The body of `GET /api/buscar` on the array read from the file, for the
query parameters `q` and `categoria` (strings or `undefined`). -/
def buscar (b : Builtins) (produtos : List Produto) (q categoria : Option String) :
    List Produto :=
  let resultado := produtos.filter estaAtivo
  let resultado :=
    if truthy q then
      let termo := b.toLowerCase (q.getD "")
      resultado.filter (fun produto =>
        includes (b.toLowerCase produto.titulo) termo ||
        includes (b.toLowerCase produto.descricao) termo ||
        includes (b.toLowerCase produto.vendedor) termo)
    else resultado
  let resultado :=
    if truthy categoria && categoria != some "todos" then
      resultado.filter (fun produto => produto.categoria == Valor.str (categoria.getD ""))
    else resultado
  sortPorData resultado

/-- The route `GET /api/buscar`. -/
def getBuscar (b : Builtins) (db : DbFile) (q categoria : Option String) :
    Resposta (List Produto) :=
  .json 200 (buscar b (lerProdutos db) q categoria)

/-! ## Concurrent requests

A handler runs without interruption from one `await` to the next, so a
`POST /api/produtos` call touches the file at two separate moments: when
`fs.readFile` delivers the content (inside `lerProdutos`) and when
`fs.writeFile` replaces it (inside `salvarProdutos`).  Steps of other calls may
fall between the two. -/

/-- The identifiers that `uuidv4()` returns: `uuidv4 i` is the one that call
number `i` receives.  The function comes from the library `uuid`, which returns
a new identifier at every call, so no two calls receive the same one. -/
structure Gerador where
  uuidv4 : Nat → String
  distinct : Function.Injective uuidv4

/-- One `POST /api/produtos` call in flight: its request, the clock the runtime
gives it, and whether its `fs.writeFile` succeeds. -/
structure Chamada where
  agora : Int
  req : Requisicao
  gravou : Bool
  deriving DecidableEq, Repr

/-- A step of call number `i`: its read of the file (with the part of the
handler that comes before it) or its write (with the part that comes after
the read). -/
inductive Passo where
  | ler (i : Nat)
  | gravar (i : Nat)
  deriving DecidableEq, Repr

/-- The file; for each call the array `produtos` it holds once its read is
done (`none` before that, and for a call that is answered before it reads); and
for each call its answer, once it has one. -/
structure Estado where
  db : DbFile
  lidos : Nat → Option (List Produto)
  respostas : Nat → Option (Resposta Produto)

/-- The object `novoProduto` of call number `i`, built with the identifier
the call receives; `none` when there is no such call or building it throws. -/
def novoDaChamada (b : Builtins) (g : Gerador) (chamadas : List Chamada) (i : Nat) :
    Option Produto :=
  (chamadas[i]?).bind (fun c => novoProduto b (g.uuidv4 i) c.agora c.req)

/-- The effect of one step.  Up to its read a call validates its request and
builds `novoProduto`: it is answered 400 or 500 there, or its read stores the
content of the file in the call.  At its write the call pushes `novoProduto`
on that array and replaces the file by it when the write succeeds, and it is
answered 201 or 500. -/
def passo (b : Builtins) (g : Gerador) (chamadas : List Chamada) (e : Estado) :
    Passo → Estado
  | .ler i =>
    match chamadas[i]? with
    | some c =>
      if faltaCampo c.req then
        { e with lidos := Function.update e.lidos i none
                 respostas := Function.update e.respostas i (some (.erro 400)) }
      else
        match novoDaChamada b g chamadas i with
        | none =>
          { e with lidos := Function.update e.lidos i none
                   respostas := Function.update e.respostas i (some (.erro 500)) }
        | some _ => { e with lidos := Function.update e.lidos i (some (lerProdutos e.db)) }
    | none => e
  | .gravar i =>
    match chamadas[i]?, e.lidos i, novoDaChamada b g chamadas i with
    | some c, some produtos, some novo =>
      let (db', sucesso) := salvarProdutos c.gravou e.db (produtos ++ [novo])
      { e with db := db'
               respostas := Function.update e.respostas i
                 (some (if sucesso then .json 201 novo else .erro 500)) }
    | _, _, _ => e

/-- The effect of a sequence of steps. -/
def executar (b : Builtins) (g : Gerador) (chamadas : List Chamada) (e : Estado)
    (passos : List Passo) : Estado :=
  passos.foldl (passo b g chamadas) e

/-- The state in which no call has started. -/
def estadoInicial (db : DbFile) : Estado :=
  { db := db, lidos := fun _ => none, respostas := fun _ => none }

/-- The sequence `passos` is an interleaving of the steps of the calls
`0, ..., n - 1`: it holds the read and the write of each call once, the read
before the write, and nothing else. -/
def Intercalacao (n : Nat) (passos : List Passo) : Prop :=
  passos.length = 2 * n ∧
  ∀ i < n, passos.count (.ler i) = 1 ∧ passos.count (.gravar i) = 1 ∧
    passos.indexOf (Passo.ler i) < passos.indexOf (Passo.gravar i)

instance (n : Nat) (passos : List Passo) : Decidable (Intercalacao n passos) :=
  inferInstanceAs (Decidable (_ ∧ _))

/-- The steps of calls that run one after the other, in the order `ordem`:
each call reads and writes before the next one reads. -/
def emSerie : List Nat → List Passo
  | [] => []
  | i :: ordem => .ler i :: .gravar i :: emSerie ordem

/-! ## The words of the specification -/

/-- The text `t` is a substring of the text `s`. -/
def Subcadeia (t s : String) : Prop :=
  t.data <:+: s.data

instance (t s : String) : Decidable (Subcadeia t s) :=
  inferInstanceAs (Decidable (t.data <:+: s.data))

/-- The text condition of `search`: the lower-cased query is a substring of the
lower-cased title, or of the lower-cased description, or of the lower-cased
seller name. -/
def CasaTexto (b : Builtins) (q : String) (p : Produto) : Prop :=
  Subcadeia (b.toLowerCase q) (b.toLowerCase p.titulo) ∨
  Subcadeia (b.toLowerCase q) (b.toLowerCase p.descricao) ∨
  Subcadeia (b.toLowerCase q) (b.toLowerCase p.vendedor)

instance (b : Builtins) (q : String) (p : Produto) : Decidable (CasaTexto b q p) :=
  inferInstanceAs (Decidable (_ ∨ _))

/-- The collections that a sequence of successful `POST /api/produtos` and
`PUT /api/produtos/:id/vendido` requests reaches from an empty collection (a
file that is missing, or that holds the empty array). -/
inductive Alcancavel (b : Builtins) : DbFile → Prop where
  | vazio (db : DbFile) : lerProdutos db = [] → Alcancavel b db
  | criar (db db' : DbFile) (uuid : String) (agora : Int) (req : Requisicao) (p : Produto) :
      Alcancavel b db → postProdutos b uuid agora true db req = (db', .json 201 p) →
      Alcancavel b db'
  | vender (db db' : DbFile) (agora : Int) (id : String) :
      Alcancavel b db → putVendido agora true db id = (db', .json 200 ()) →
      Alcancavel b db'

/-- The field of a draft is missing or empty: it is not there, or it is `null`
or the empty text. -/
def Vazio (v : Valor) : Prop :=
  v = .undefined ∨ v = .null ∨ v = .str ""

/-- The field of a draft is a non-empty text. -/
def TextoPresente (v : Valor) : Prop :=
  ∃ s : String, v = .str s ∧ s ≠ ""

/-- The price of a draft is present and non-empty, as raw text or as a number:
it is a non-empty text or a number other than `0`. -/
def PrecoPresente (v : Valor) : Prop :=
  (∃ s : String, v = .str s ∧ s ≠ "") ∨ (∃ y : ℚ, v = .num y ∧ y ≠ 0)

/-! ## A runtime and data for the examples

On ASCII text `toLowerCase` maps `A`-`Z` to `a`-`z` and keeps every other
character.  On a text that starts with a decimal literal `parseFloat` returns
the number the literal writes, rounded to a double; the rounding of a finite
result is left out (the examples do not need it), the overflow to `Infinity`
is kept. -/

/-- The method `s.toLowerCase()` on ASCII text. -/
def toLowerCaseAscii (s : String) : String :=
  String.mk (s.data.map Char.toLower)

/-- The decimal digits at the front of a text: how many there are (added to
`n`), the number they write (after the digits of `v`), and the rest of the
text. -/
def decimalDigits : List Char → Nat → Nat → Nat × Nat × List Char
  | [], n, v => (n, v, [])
  | c :: cs, n, v =>
    if c.isDigit then decimalDigits cs (n + 1) (10 * v + (c.toNat - 48)) else (n, v, c :: cs)

/-- The value of the `ExponentPart` at the front of a text, `0` when the text
does not start with one. -/
def exponentPart : List Char → Int
  | [] => 0
  | c :: cs =>
    if c = 'e' ∨ c = 'E' then
      match cs with
      | '+' :: ds => ((decimalDigits ds 0 0).2.1 : Int)
      | '-' :: ds => - ((decimalDigits ds 0 0).2.1 : Int)
      | ds => ((decimalDigits ds 0 0).2.1 : Int)
    else 0

/-- The rational `m * 10 ^ e`. -/
def scale10 (m : Nat) (e : Int) : ℚ :=
  match e with
  | Int.ofNat k => ((m * 10 ^ k : Nat) : ℚ)
  | Int.negSucc k => mkRat (m : Int) (10 ^ (k + 1))

/-- The number `2 ^ 1024 - 2 ^ 970`, half way between the largest double and
`2 ^ 1024`: a number rounds to `Infinity` when it is at least this. -/
def overflowThreshold : Nat :=
  179769313486231580793728971405303415079934132710037826936173778980444968292764750946649017977587207096330286416692887910946555547851940402630657488671505820681908902000708383676273854845817711531764475730270069855571366959622842914819860834936475292719074168444365510704342711559699508093042880177904174497792

/-- The number `m * 10 ^ e` rounds to `Infinity`. -/
def overflows (m : Nat) (e : Int) : Bool :=
  match e with
  | Int.ofNat k => decide (overflowThreshold ≤ m * 10 ^ k)
  | Int.negSucc k => decide (overflowThreshold * 10 ^ (k + 1) ≤ m)

/-- The value of the literal `m * 10 ^ e`: `none` for `Infinity`. -/
def literalValue (m : Nat) (e : Int) : Option ℚ :=
  if overflows m e then none else some (scale10 m e)

/-- The longest `StrUnsignedDecimalLiteral` at the front of a text: `none`
when there is none, `some none` for `Infinity`, otherwise its value. -/
def strUnsignedDecimalLiteral (cs : List Char) : Option (Option ℚ) :=
  if "Infinity".data.isPrefixOf cs then some none
  else
    let (n1, v1, r1) := decimalDigits cs 0 0
    match r1 with
    | '.' :: r2 =>
      let (n2, v2, r3) := decimalDigits r2 0 0
      if n1 + n2 = 0 then none
      else some (literalValue (v1 * 10 ^ n2 + v2) (exponentPart r3 - n2))
    | _ => if n1 = 0 then none else some (literalValue v1 (exponentPart r1))

/-- The function `parseFloat` on a text: leading white space is skipped, then
the longest decimal literal is read. -/
def parseFloatDecimal (s : String) : JsNumber :=
  let cs := s.data.dropWhile isWhiteSpace
  let (neg, cs) := match cs with
    | '-' :: r => (true, r)
    | '+' :: r => (false, r)
    | r => (false, r)
  match strUnsignedDecimalLiteral cs with
  | none => .nan
  | some none => .infinity neg
  | some (some x) => .num (if neg then -x else x)

/-- The function `parseFloat` on a field of the body.  A number is turned into
its text and read back as itself; the texts `undefined`, `null`, `true` and
`false` start with no number.  An array or an object, which no example uses,
is taken to be one whose text starts with no number either, such as `[]` or
an object. -/
def parseFloatValor : Valor → JsNumber
  | .str s => parseFloatDecimal s
  | .num x => .num x
  | .undefined => .nan
  | .null => .nan
  | .bool _ => .nan
  | .outro _ => .nan

/-- The runtime of the examples. -/
def asciiBuiltins : Builtins :=
  { toLowerCase := toLowerCaseAscii, parseFloat := parseFloatValor }

/-- The identifiers of the examples: `"p"`, `"p1"`, `"p11"`, and so on. -/
def geradorExemplo : Gerador :=
  { uuidv4 := fun i => String.mk ('p' :: List.replicate i '1')
    distinct := by
      intro i j h
      have hlen := congrArg (fun t : String => t.data.length) h
      simpa using hlen }

/-- The request of the scenario: a table offered by Ana for 150.00. -/
def requisicaoMesa : Requisicao :=
  { titulo := .str "Mesa"
    descricao := .str "Mesa de madeira"
    preco := .str "150.00"
    categoria := .undefined
    vendedor := .str "Ana"
    whatsapp := .undefined
    condicao := .undefined
    files := none }

/-- Two calls with the request of the scenario, at the times `500` and `1000`,
whose writes succeed. -/
def chamadasMesa : List Chamada :=
  [{ agora := 500, req := requisicaoMesa, gravou := true },
    { agora := 1000, req := requisicaoMesa, gravou := true }]

/-- The product that `requisicaoMesa` creates with identifier `"p1"` at time
`1000`. -/
def produtoMesa : Produto :=
  { id := "p1"
    titulo := "Mesa"
    descricao := "Mesa de madeira"
    preco := some 150
    categoria := .str "outros"
    vendedor := "Ana"
    whatsapp := .str ""
    condicao := .str "usado"
    imagens := []
    criadoEm := 1000
    ativo := some true
    vendidoEm := none }

/-! ## The sort is a stable sort -/

theorem naoDepois_iff (a b : Produto) : naoDepois a b ↔ b.criadoEm ≤ a.criadoEm := by
  unfold naoDepois compararData
  omega

theorem sortPorData_perm (l : List Produto) : (sortPorData l).Perm l :=
  List.perm_insertionSort naoDepois l

theorem mem_sortPorData {l : List Produto} {p : Produto} : p ∈ sortPorData l ↔ p ∈ l :=
  (sortPorData_perm l).mem_iff

theorem sortPorData_sorted (l : List Produto) : (sortPorData l).Pairwise naoDepois :=
  List.sorted_insertionSort naoDepois l

/-- Inserting before a list whose members may all stay behind the new element
puts it at the front. -/
theorem orderedInsert_of_forall (a : Produto) (l : List Produto)
    (h : ∀ x ∈ l, naoDepois a x) : l.orderedInsert naoDepois a = a :: l := by
  cases l with
  | nil => rfl
  | cons x xs => exact List.orderedInsert_of_le naoDepois xs (h x (List.mem_cons_self x xs))

/-- Filtering after an insertion into a sorted list is an insertion into the
filtered list, or nothing when the new element is filtered out. -/
theorem filter_orderedInsert (f : Produto → Bool) (a : Produto) (l : List Produto)
    (hl : l.Pairwise naoDepois) :
    (l.orderedInsert naoDepois a).filter f =
      if f a then (l.filter f).orderedInsert naoDepois a else l.filter f := by
  induction l with
  | nil => by_cases ha : f a <;> simp [ha]
  | cons x xs ih =>
    have hxs : xs.Pairwise naoDepois := (List.pairwise_cons.mp hl).2
    have hx : ∀ y ∈ xs, naoDepois x y := (List.pairwise_cons.mp hl).1
    by_cases hax : naoDepois a x
    · have hall : ∀ y ∈ (x :: xs).filter f, naoDepois a y := by
        intro y hy
        rcases List.mem_cons.mp (List.mem_filter.mp hy).1 with rfl | hy'
        · exact hax
        · exact Trans.trans hax (hx y hy')
      rw [List.orderedInsert_of_le naoDepois xs hax]
      by_cases ha : f a
      · rw [if_pos ha, orderedInsert_of_forall a _ hall, List.filter_cons_of_pos ha]
      · rw [if_neg ha, List.filter_cons_of_neg ha]
    · have hins : (x :: xs).orderedInsert naoDepois a = x :: xs.orderedInsert naoDepois a := by
        simp [List.orderedInsert, hax]
      rw [hins]
      by_cases hfx : f x
      · rw [List.filter_cons_of_pos hfx, List.filter_cons_of_pos hfx, ih hxs]
        by_cases ha : f a
        · simp [ha, List.orderedInsert, hax]
        · simp [ha]
      · rw [List.filter_cons_of_neg hfx, List.filter_cons_of_neg hfx, ih hxs]

/-- The sort is stable: it commutes with every filter. -/
theorem filter_sortPorData (f : Produto → Bool) (l : List Produto) :
    (sortPorData l).filter f = sortPorData (l.filter f) := by
  induction l with
  | nil => rfl
  | cons a l ih =>
    have h := filter_orderedInsert f a (sortPorData l) (sortPorData_sorted l)
    unfold sortPorData at h ih ⊢
    rw [List.insertionSort, h, ih]
    by_cases ha : f a
    · rw [if_pos ha, List.filter_cons_of_pos ha, List.insertionSort]
    · rw [if_neg ha, List.filter_cons_of_neg ha]

theorem sortPorData_eq_self {l : List Produto} (h : l.Pairwise naoDepois) :
    sortPorData l = l :=
  List.Sorted.insertionSort_eq h

/-- Two lists with the same image under `f` are equal when `f` separates the
members of the first from those of the second. -/
theorem eq_of_map_eq {α β : Type} (f : α → β) :
    ∀ (s c : List α), s.map f = c.map f →
      (∀ x ∈ s, ∀ y ∈ c, f x = f y → x = y) → s = c
  | [], [], _, _ => rfl
  | [], _ :: _, h, _ => by simp at h
  | _ :: _, [], h, _ => by simp at h
  | a :: s, b :: c, h, hinj => by
    simp only [List.map_cons, List.cons.injEq] at h
    have hab : a = b := hinj a (List.mem_cons_self a s) b (List.mem_cons_self b c) h.1
    have ht : s = c := eq_of_map_eq f s c h.2 (fun x hx y hy hxy =>
      hinj x (List.mem_cons_of_mem a hx) y (List.mem_cons_of_mem b hy) hxy)
    rw [hab, ht]

/-- A rearrangement of `l` in strictly decreasing order of `criadoEm` is the
sorted `l`. -/
theorem sortPorData_eq_of_perm {l c : List Produto} (hp : l.Perm c)
    (hc : c.Pairwise (fun a b => b.criadoEm < a.criadoEm)) : sortPorData l = c := by
  have hperm : (sortPorData l).Perm c := (sortPorData_perm l).trans hp
  have hs1 : ((sortPorData l).map Produto.criadoEm).Sorted (· ≥ ·) := by
    refine (List.pairwise_map).mpr ((sortPorData_sorted l).imp ?_)
    intro a b hab
    exact (naoDepois_iff a b).mp hab
  have hs2 : (c.map Produto.criadoEm).Sorted (· ≥ ·) := by
    refine (List.pairwise_map).mpr (hc.imp ?_)
    intro a b hab
    exact le_of_lt hab
  have hmap : (sortPorData l).map Produto.criadoEm = c.map Produto.criadoEm :=
    List.eq_of_perm_of_sorted (hperm.map _) hs1 hs2
  have hnd : (c.map Produto.criadoEm).Nodup := by
    refine (List.pairwise_map).mpr (hc.imp ?_)
    intro a b hab
    exact ne_of_gt hab
  refine eq_of_map_eq Produto.criadoEm _ _ hmap ?_
  intro x hx y hy hxy
  exact List.inj_on_of_nodup_map hnd (hperm.mem_iff.mp hx) hy hxy

/-! ## Listing the active products -/

/-- C5: `listActive` returns exactly the listings of the snapshot whose `ativo`
is not `false`, each as often as the snapshot holds it, in descending order of
`criadoEm`, and for every timestamp the listings with that timestamp come in
the order the snapshot has them; three active listings created at
`t1 < t2 < t3`, stored in any order, come back as `[t3, t2, t1]`. -/
theorem produtosAtivos_stable_sorted (produtos : List Produto) :
    (produtosAtivos produtos).Perm (produtos.filter (fun p => p.ativo != some false)) ∧
    (∀ p ∈ produtosAtivos produtos, p.ativo ≠ some false) ∧
    (produtosAtivos produtos).Pairwise (fun a b => b.criadoEm ≤ a.criadoEm) ∧
    (∀ t : Int, (produtosAtivos produtos).filter (fun p => p.criadoEm = t) =
      (produtos.filter (fun p => p.ativo != some false)).filter (fun p => p.criadoEm = t)) ∧
    (∀ p1 p2 p3 : Produto, p1.ativo ≠ some false → p2.ativo ≠ some false →
      p3.ativo ≠ some false → p1.criadoEm < p2.criadoEm → p2.criadoEm < p3.criadoEm →
      produtos.Perm [p1, p2, p3] → produtosAtivos produtos = [p3, p2, p1]) := by
  have hfilter : produtos.filter estaAtivo = produtos.filter (fun p => p.ativo != some false) :=
    rfl
  refine ⟨?_, ?_, ?_, ?_, ?_⟩
  · exact sortPorData_perm _
  · intro p hp
    have hmem := (List.mem_filter.mp (mem_sortPorData.mp hp)).2
    simpa [estaAtivo] using hmem
  · exact (sortPorData_sorted _).imp (fun {a b} hab => (naoDepois_iff a b).mp hab)
  · intro t
    unfold produtosAtivos
    rw [filter_sortPorData, hfilter]
    apply sortPorData_eq_self
    refine List.pairwise_of_forall_mem_list ?_
    intro a ha b hb
    have ha' := (List.mem_filter.mp ha).2
    have hb' := (List.mem_filter.mp hb).2
    rw [naoDepois_iff]
    simp only [decide_eq_true_eq] at ha' hb'
    omega
  · intro p1 p2 p3 h1 h2 h3 h12 h23 hperm
    have hall : produtos.filter estaAtivo = produtos := by
      apply List.filter_eq_self.mpr
      intro p hp
      have hp' := hperm.mem_iff.mp hp
      simp only [List.mem_cons, List.mem_singleton, List.not_mem_nil, or_false] at hp'
      rcases hp' with rfl | rfl | rfl <;> simpa [estaAtivo]
    unfold produtosAtivos
    rw [hall]
    apply sortPorData_eq_of_perm
    · exact hperm.trans (List.reverse_perm [p3, p2, p1])
    · simp only [List.pairwise_cons, List.mem_cons, List.mem_singleton, List.not_mem_nil,
        forall_eq_or_imp, forall_eq, IsEmpty.forall_iff, implies_true, List.Pairwise.nil,
        and_true]
      omega

/-- Three listings created at `1 < 2 < 3` and stored in that order, with a
retired one among them, are listed newest first without the retired one. -/
theorem produtosAtivos_stable_sorted_witness :
    produtosAtivos
        [{ produtoMesa with id := "a", criadoEm := 1 },
          { produtoMesa with id := "x", ativo := some false, vendidoEm := some 6 },
          { produtoMesa with id := "b", criadoEm := 2 },
          { produtoMesa with id := "c", criadoEm := 3 }] =
      [{ produtoMesa with id := "c", criadoEm := 3 },
        { produtoMesa with id := "b", criadoEm := 2 },
        { produtoMesa with id := "a", criadoEm := 1 }] ∧
    produtosAtivos
        [{ produtoMesa with id := "b", criadoEm := 2 },
          { produtoMesa with id := "c", criadoEm := 3 },
          { produtoMesa with id := "a", criadoEm := 1 }] =
      [{ produtoMesa with id := "c", criadoEm := 3 },
        { produtoMesa with id := "b", criadoEm := 2 },
        { produtoMesa with id := "a", criadoEm := 1 }] :=
  ⟨by rfl,
    (produtosAtivos_stable_sorted
      [{ produtoMesa with id := "b", criadoEm := 2 },
        { produtoMesa with id := "c", criadoEm := 3 },
        { produtoMesa with id := "a", criadoEm := 1 }]).2.2.2.2
      { produtoMesa with id := "a", criadoEm := 1 }
      { produtoMesa with id := "b", criadoEm := 2 }
      { produtoMesa with id := "c", criadoEm := 3 }
      (by decide) (by decide) (by decide) (by decide) (by decide)
      ((List.Perm.cons _ (List.Perm.swap _ _ _)).trans (List.Perm.swap _ _ _))⟩

/-! ## Searching -/

/-- The method `includes` decides the substring relation. -/
theorem includes_iff (s t : String) : includes s t = true ↔ Subcadeia t s := by
  unfold includes Subcadeia
  rw [List.any_eq_true, List.infix_iff_prefix_suffix]
  constructor
  · rintro ⟨u, hu, hpre⟩
    exact ⟨u, List.isPrefixOf_iff_prefix.mp hpre, (List.mem_tails _ _).mp hu⟩
  · rintro ⟨u, hpre, hsuf⟩
    exact ⟨u, (List.mem_tails _ _).mpr hsuf, List.isPrefixOf_iff_prefix.mpr hpre⟩

/-- The test of the text filter of `GET /api/buscar` decides `CasaTexto`. -/
theorem filtroTexto_iff (b : Builtins) (q : String) (p : Produto) :
    (includes (b.toLowerCase p.titulo) (b.toLowerCase q) ||
      includes (b.toLowerCase p.descricao) (b.toLowerCase q) ||
      includes (b.toLowerCase p.vendedor) (b.toLowerCase q)) = decide (CasaTexto b q p) := by
  rw [Bool.eq_iff_iff]
  simp only [Bool.or_eq_true, includes_iff, decide_eq_true_eq, CasaTexto, or_assoc]

/-- The search with a query that is absent or empty and a category that is
absent, empty or `"todos"` is the list of the active products. -/
theorem buscar_sem_filtro (b : Builtins) (produtos : List Produto) (q categoria : Option String)
    (hq : q = none ∨ q = some "")
    (hc : categoria = none ∨ categoria = some "" ∨ categoria = some "todos") :
    buscar b produtos q categoria = produtosAtivos produtos := by
  rcases hq with rfl | rfl <;> rcases hc with rfl | rfl | rfl <;> rfl

/-- The search with a non-empty query and a category that is absent, empty or
`"todos"` applies the text filter only. -/
theorem buscar_texto (b : Builtins) (produtos : List Produto) (q : String)
    (categoria : Option String) (hq : q ≠ "")
    (hc : categoria = none ∨ categoria = some "" ∨ categoria = some "todos") :
    buscar b produtos (some q) categoria =
      (produtosAtivos produtos).filter (fun p => decide (CasaTexto b q p)) := by
  have hcat : (truthy categoria && categoria != some "todos") = false := by
    rcases hc with rfl | rfl | rfl <;> rfl
  have htq : truthy (some q) = true := by simpa [truthy] using hq
  unfold buscar produtosAtivos
  simp only [htq, hcat, if_true, Option.getD_some]
  rw [filter_sortPorData]
  simp only [filtroTexto_iff, Bool.false_eq_true, if_false]

/-- The search with a query that is absent or empty and a non-empty category
other than `"todos"` applies the category filter only. -/
theorem buscar_categoria (b : Builtins) (produtos : List Produto) (q : Option String)
    (c : String) (hq : q = none ∨ q = some "") (hc : c ≠ "") (hc' : c ≠ "todos") :
    buscar b produtos q (some c) =
      (produtosAtivos produtos).filter (fun p => decide (p.categoria = .str c)) := by
  have hcat : (truthy (some c) && some c != some "todos") = true := by
    simp [truthy, hc, hc']
  have htq : truthy q = false := by rcases hq with rfl | rfl <;> rfl
  unfold buscar produtosAtivos
  simp only [htq, hcat, if_true, Bool.false_eq_true, if_false]
  rw [filter_sortPorData]
  have hf : (fun produto : Produto => produto.categoria == Valor.str ((some c).getD "")) =
      (fun p => decide (p.categoria = .str c)) := by
    funext p
    rw [Bool.eq_iff_iff]
    simp
  rw [hf]

/-- The search with a non-empty query and a non-empty category other than
`"todos"` applies both filters. -/
theorem buscar_texto_categoria (b : Builtins) (produtos : List Produto) (q c : String)
    (hq : q ≠ "") (hc : c ≠ "") (hc' : c ≠ "todos") :
    buscar b produtos (some q) (some c) =
      (produtosAtivos produtos).filter
        (fun p => decide (CasaTexto b q p ∧ p.categoria = .str c)) := by
  have hcat : (truthy (some c) && some c != some "todos") = true := by
    simp [truthy, hc, hc']
  have htq : truthy (some q) = true := by simpa [truthy] using hq
  unfold buscar produtosAtivos
  simp only [htq, hcat, if_true, Option.getD_some]
  rw [filter_sortPorData, List.filter_filter]
  congr 2
  funext p
  rw [filtroTexto_iff, Bool.eq_iff_iff]
  simp [and_comm]

/-! ## Creating a product -/

theorem truthy_of_textoPresente {v : Valor} (h : TextoPresente v) : v.truthy = true := by
  obtain ⟨s, rfl, hs⟩ := h
  simpa [Valor.truthy] using hs

theorem truthy_of_precoPresente {v : Valor} (h : PrecoPresente v) : v.truthy = true := by
  rcases h with ⟨s, rfl, hs⟩ | ⟨y, rfl, hy⟩
  · simpa [Valor.truthy] using hs
  · simpa [Valor.truthy] using hy

theorem truthy_of_vazio {v : Valor} (h : Vazio v) : v.truthy = false := by
  rcases h with rfl | rfl | rfl <;> rfl

theorem orElse_of_vazio {v : Valor} (h : Vazio v) (d : String) : v.orElse d = .str d := by
  simp [Valor.orElse, truthy_of_vazio h]

theorem orElse_of_truthy {v : Valor} (h : v.truthy = true) (d : String) : v.orElse d = v := by
  simp [Valor.orElse, h]

/-- The validation refuses a request with a missing or empty required field. -/
theorem faltaCampo_of_vazio (req : Requisicao)
    (h : Vazio req.titulo ∨ Vazio req.descricao ∨ Vazio req.preco ∨ Vazio req.vendedor) :
    faltaCampo req = true := by
  rcases h with h | h | h | h <;> simp [faltaCampo, truthy_of_vazio h]

/-- The object `novoProduto` of a request whose title, description and seller
are texts. -/
theorem novoProduto_of_textos (b : Builtins) (uuid : String) (agora : Int) (req : Requisicao)
    (titulo descricao vendedor : String) (ht : req.titulo = .str titulo)
    (hd : req.descricao = .str descricao) (hv : req.vendedor = .str vendedor) :
    novoProduto b uuid agora req = some
      { id := uuid
        titulo := trim titulo
        descricao := trim descricao
        preco := jsonNumber (b.parseFloat req.preco)
        categoria := req.categoria.orElse "outros"
        vendedor := trim vendedor
        whatsapp := req.whatsapp.orElse ""
        condicao := req.condicao.orElse "usado"
        imagens := (req.files.getD []).map (fun filename => "/uploads/" ++ filename)
        criadoEm := agora
        ativo := some true
        vendidoEm := none } := by
  unfold novoProduto
  rw [ht, hd, hv]
  cases req.files <;> rfl

/-- Every object `novoProduto` carries the identifier and the clock it was
given, is active and has no sold timestamp. -/
theorem novoProduto_eq_some (b : Builtins) (uuid : String) (agora : Int) (req : Requisicao)
    (p : Produto) (h : novoProduto b uuid agora req = some p) :
    p.id = uuid ∧ p.criadoEm = agora ∧ p.ativo = some true ∧ p.vendidoEm = none := by
  unfold novoProduto at h
  split at h
  · cases h
    exact ⟨rfl, rfl, rfl, rfl⟩
  · cases h

/-- A request that passes the validation and whose `novoProduto` is built,
written successfully, appends it to the file and answers 201 with it. -/
theorem postProdutos_of_campos (b : Builtins) (uuid : String) (agora : Int) (db : DbFile)
    (req : Requisicao) (p : Produto) (h : faltaCampo req = false)
    (hp : novoProduto b uuid agora req = some p) :
    postProdutos b uuid agora true db req = (some (lerProdutos db ++ [p]), .json 201 p) := by
  simp [postProdutos, h, hp, salvarProdutos]

/-- An answer 201 of `POST /api/produtos` comes with the file extended by
`novoProduto`. -/
theorem postProdutos_eq_201 (b : Builtins) (uuid : String) (agora : Int) (gravou : Bool)
    (db db' : DbFile) (req : Requisicao) (p : Produto)
    (h : postProdutos b uuid agora gravou db req = (db', .json 201 p)) :
    novoProduto b uuid agora req = some p ∧ db' = some (lerProdutos db ++ [p]) := by
  unfold postProdutos salvarProdutos at h
  by_cases hf : faltaCampo req = true
  · simp [hf] at h
  · cases hn : novoProduto b uuid agora req with
    | none => simp [hf, hn] at h
    | some novo =>
      cases gravou
      · simp [hf, hn] at h
      · simp only [hf, hn, Bool.false_eq_true, if_false, if_true, Prod.mk.injEq,
          Resposta.json.injEq, true_and] at h
        exact ⟨by rw [h.2], by rw [← h.1, h.2]⟩

/-- The lookup by identifier finds a product appended to a collection that does
not hold its identifier, when it is not marked sold. -/
theorem getProdutoPorId_append (l : List Produto) (p : Produto)
    (hfresh : ∀ x ∈ l, x.id ≠ p.id) (hat : p.ativo ≠ some false) :
    getProdutoPorId (some (l ++ [p])) p.id = .json 200 p := by
  have hnone : l.find? (fun x => x.id == p.id) = none := by
    rw [List.find?_eq_none]
    intro x hx
    simpa using hfresh x hx
  unfold getProdutoPorId lerProdutos
  simp [List.find?_append, hnone, hat]

/-- A request whose title, description and seller are non-empty texts and whose
price is a non-empty text or a non-zero number passes the validation. -/
theorem faltaCampo_of_presentes (req : Requisicao) (ht : TextoPresente req.titulo)
    (hd : TextoPresente req.descricao) (hp : PrecoPresente req.preco)
    (hv : TextoPresente req.vendedor) : faltaCampo req = false := by
  simp [faltaCampo, truthy_of_textoPresente ht, truthy_of_textoPresente hd,
    truthy_of_precoPresente hp, truthy_of_textoPresente hv]

/-- C1, amended: for a draft whose title, description and seller are non-empty
texts and whose price is a non-empty text or a non-zero number that parses as a
finite number `x ≥ 0`, and an identifier that the collection does not hold, a
create whose commit succeeds followed by `get(id)` returns the created
listing; it has the trimmed title, description and seller, the price `x`, the
given identifier and timestamp, `ativo = true`, the attachment paths in order,
the draft's contact or `""` when that is absent, and the draft's category and
condition when these are non-empty texts, `"outros"` and `"usado"` when they
are absent or empty. -/
theorem postProdutos_then_getProdutoPorId (b : Builtins) (uuid : String) (agora : Int)
    (db : DbFile) (req : Requisicao) (titulo descricao vendedor : String) (x : ℚ)
    (ht : req.titulo = .str titulo) (ht' : titulo ≠ "")
    (hd : req.descricao = .str descricao) (hd' : descricao ≠ "")
    (hv : req.vendedor = .str vendedor) (hv' : vendedor ≠ "")
    (hp : PrecoPresente req.preco)
    (hx : b.parseFloat req.preco = .num x) (_hx0 : 0 ≤ x)
    (hfresh : ∀ p ∈ lerProdutos db, p.id ≠ uuid) :
    ∃ (p : Produto) (db' : DbFile),
      postProdutos b uuid agora true db req = (db', .json 201 p) ∧
      getProdutoPorId db' uuid = .json 200 p ∧
      p.id = uuid ∧ p.criadoEm = agora ∧ p.ativo = some true ∧ p.vendidoEm = none ∧
      p.titulo = trim titulo ∧ p.descricao = trim descricao ∧ p.vendedor = trim vendedor ∧
      p.preco = some x ∧
      (∀ w, req.whatsapp = .str w → p.whatsapp = .str w) ∧
      (Vazio req.whatsapp → p.whatsapp = .str "") ∧
      p.imagens = (req.files.getD []).map (fun filename => "/uploads/" ++ filename) ∧
      (∀ c, req.categoria = .str c → c ≠ "" → p.categoria = .str c) ∧
      (Vazio req.categoria → p.categoria = .str "outros") ∧
      (∀ c, req.condicao = .str c → c ≠ "" → p.condicao = .str c) ∧
      (Vazio req.condicao → p.condicao = .str "usado") := by
  have hcampos : faltaCampo req = false :=
    faltaCampo_of_presentes req ⟨titulo, ht, ht'⟩ ⟨descricao, hd, hd'⟩ hp ⟨vendedor, hv, hv'⟩
  have hnovo := novoProduto_of_textos b uuid agora req titulo descricao vendedor ht hd hv
  refine ⟨_, some (lerProdutos db ++ [_]),
    postProdutos_of_campos b uuid agora db req _ hcampos hnovo, ?_, rfl, rfl, rfl, rfl, rfl, rfl,
    rfl, ?_, ?_, ?_, rfl, ?_, ?_, ?_, ?_⟩
  · exact getProdutoPorId_append (lerProdutos db) _ hfresh (by simp)
  · simp [hx, jsonNumber]
  · intro w hw
    by_cases hw' : w = ""
    · simp [hw, hw', Valor.orElse, Valor.truthy]
    · simp [hw, hw', Valor.orElse, Valor.truthy]
  · intro hw
    exact orElse_of_vazio hw ""
  · intro c hc hc'
    exact hc ▸ orElse_of_truthy (truthy_of_textoPresente ⟨c, hc, hc'⟩) "outros"
  · intro hc
    exact orElse_of_vazio hc "outros"
  · intro c hc hc'
    exact hc ▸ orElse_of_truthy (truthy_of_textoPresente ⟨c, hc, hc'⟩) "usado"
  · intro hc
    exact orElse_of_vazio hc "usado"

/-- The scenario of the specification: the table of Ana is created with the
defaults `"outros"` and `"usado"` and found again by its identifier. -/
theorem postProdutos_then_getProdutoPorId_witness :
    asciiBuiltins.parseFloat (.str "150.00") = .num 150 ∧
    postProdutos asciiBuiltins "p1" 1000 true none requisicaoMesa =
      (some [produtoMesa], .json 201 produtoMesa) ∧
    ∃ (p : Produto) (db' : DbFile),
      postProdutos asciiBuiltins "p1" 1000 true none requisicaoMesa = (db', .json 201 p) ∧
      getProdutoPorId db' "p1" = .json 200 p ∧
      p.id = "p1" ∧ p.criadoEm = 1000 ∧ p.ativo = some true ∧ p.vendidoEm = none ∧
      p.titulo = trim "Mesa" ∧ p.descricao = trim "Mesa de madeira" ∧ p.vendedor = trim "Ana" ∧
      p.preco = some 150 ∧
      (∀ w, requisicaoMesa.whatsapp = .str w → p.whatsapp = .str w) ∧
      (Vazio requisicaoMesa.whatsapp → p.whatsapp = .str "") ∧
      p.imagens = (requisicaoMesa.files.getD []).map (fun filename => "/uploads/" ++ filename) ∧
      (∀ c, requisicaoMesa.categoria = .str c → c ≠ "" → p.categoria = .str c) ∧
      (Vazio requisicaoMesa.categoria → p.categoria = .str "outros") ∧
      (∀ c, requisicaoMesa.condicao = .str c → c ≠ "" → p.condicao = .str c) ∧
      (Vazio requisicaoMesa.condicao → p.condicao = .str "usado") :=
  ⟨by rfl, by rfl,
    postProdutos_then_getProdutoPorId asciiBuiltins "p1" 1000 none requisicaoMesa
      "Mesa" "Mesa de madeira" "Ana" 150 rfl (by decide) rfl (by decide) rfl (by decide)
      (Or.inl ⟨"150.00", rfl, by decide⟩) (by rfl) (by norm_num) (by simp [lerProdutos])⟩

/-- C1 as stated fails on a draft whose category and condition are present and
empty: the draft is valid, its identifier is new and the commit succeeds, yet
the listing that `get(id)` returns has the category `"outros"` and the
condition `"usado"`, which are not the draft's.  It also fails on the price
`"Infinity"`, which parses as a non-negative number and is stored as `null`. -/
theorem postProdutos_categoria_vazia :
    asciiBuiltins.parseFloat (.str "150.00") = .num 150 ∧
    postProdutos asciiBuiltins "p1" 1000 true none
        { requisicaoMesa with categoria := .str "", condicao := .str "" } =
      (some [produtoMesa], .json 201 produtoMesa) ∧
    getProdutoPorId (some [produtoMesa]) "p1" = .json 200 produtoMesa ∧
    produtoMesa.categoria ≠ Valor.str "" ∧
    produtoMesa.condicao ≠ Valor.str "" ∧
    asciiBuiltins.parseFloat (.str "Infinity") = .infinity false ∧
    postProdutos asciiBuiltins "p1" 1000 true none
        { requisicaoMesa with preco := .str "Infinity" } =
      (some [{ produtoMesa with preco := none }], .json 201 { produtoMesa with preco := none }) ∧
    getProdutoPorId (some [{ produtoMesa with preco := none }]) "p1" =
      .json 200 { produtoMesa with preco := none } := by
  refine ⟨by rfl, by rfl, by rfl, by decide, by decide, by rfl, by rfl, by rfl⟩

/-- A draft in a JSON body whose price is the number `0` is answered 400, and
one whose title is the number `123` is answered 500; neither is stored. -/
theorem postProdutos_json_body :
    postProdutos asciiBuiltins "p1" 1000 true none { requisicaoMesa with preco := .num 0 } =
      (none, .erro 400) ∧
    postProdutos asciiBuiltins "p1" 1000 true none { requisicaoMesa with titulo := .num 123 } =
      (none, .erro 500) := by
  exact ⟨by rfl, by rfl⟩

/-- C4, amended: create answers 400 and leaves the file as it is when title,
description, price or seller is missing or empty; the value of the price is
not validated: when title, description and seller are non-empty texts and the
price is a non-empty text or a non-zero number, the draft is accepted whatever
the price parses to, and once the commit succeeds it is stored with the JSON
form of that number (a negative number as it is, `NaN` and the infinities as
`null`). -/
theorem postProdutos_validation (b : Builtins) (uuid : String) (agora : Int) (gravou : Bool)
    (db : DbFile) (req : Requisicao) :
    (Vazio req.titulo ∨ Vazio req.descricao ∨ Vazio req.preco ∨ Vazio req.vendedor →
      postProdutos b uuid agora gravou db req = (db, .erro 400)) ∧
    (TextoPresente req.titulo → TextoPresente req.descricao → PrecoPresente req.preco →
      TextoPresente req.vendedor →
      ∃ p : Produto, p.preco = jsonNumber (b.parseFloat req.preco) ∧
        postProdutos b uuid agora true db req =
          (some (lerProdutos db ++ [p]), .json 201 p)) := by
  constructor
  · intro h
    simp [postProdutos, faltaCampo_of_vazio req h]
  · intro ht hd hp hv
    have hf := faltaCampo_of_presentes req ht hd hp hv
    obtain ⟨t, ht1, _⟩ := ht
    obtain ⟨d, hd1, _⟩ := hd
    obtain ⟨v, hv1, _⟩ := hv
    exact ⟨_, rfl, postProdutos_of_campos b uuid agora db req _ hf
      (novoProduto_of_textos b uuid agora req t d v ht1 hd1 hv1)⟩

/-- A draft without a title is refused, and the drafts of the scenario with the
prices `"-5"` and `"abc"` are stored, with the prices `-5` and `null`. -/
theorem postProdutos_validation_witness :
    postProdutos asciiBuiltins "p1" 1000 true none
        { requisicaoMesa with titulo := .undefined } = (none, .erro 400) ∧
    (∃ p : Produto,
      p.preco = jsonNumber (asciiBuiltins.parseFloat (.str "-5")) ∧
      postProdutos asciiBuiltins "p1" 1000 true none
          { requisicaoMesa with preco := .str "-5" } =
        (some (lerProdutos none ++ [p]), .json 201 p)) ∧
    (∃ p : Produto,
      p.preco = jsonNumber (asciiBuiltins.parseFloat (.str "abc")) ∧
      postProdutos asciiBuiltins "p1" 1000 true none
          { requisicaoMesa with preco := .str "abc" } =
        (some (lerProdutos none ++ [p]), .json 201 p)) ∧
    jsonNumber (asciiBuiltins.parseFloat (.str "-5")) = some (-5) ∧
    jsonNumber (asciiBuiltins.parseFloat (.str "abc")) = none :=
  ⟨(postProdutos_validation asciiBuiltins "p1" 1000 true none
      { requisicaoMesa with titulo := .undefined }).1 (Or.inl (Or.inl rfl)),
    (postProdutos_validation asciiBuiltins "p1" 1000 true none
      { requisicaoMesa with preco := .str "-5" }).2 ⟨"Mesa", rfl, by decide⟩
      ⟨"Mesa de madeira", rfl, by decide⟩ (Or.inl ⟨"-5", rfl, by decide⟩)
      ⟨"Ana", rfl, by decide⟩,
    (postProdutos_validation asciiBuiltins "p1" 1000 true none
      { requisicaoMesa with preco := .str "abc" }).2 ⟨"Mesa", rfl, by decide⟩
      ⟨"Mesa de madeira", rfl, by decide⟩ (Or.inl ⟨"abc", rfl, by decide⟩)
      ⟨"Ana", rfl, by decide⟩,
    by rfl, by rfl⟩

/-- C4 as stated fails on the prices `"-5"` and `"abc"`: neither parses as a
non-negative number, and both drafts are answered 201 and stored, the first
with the price `-5` and the second with the price `null`. -/
theorem postProdutos_preco_invalido :
    asciiBuiltins.parseFloat (.str "-5") = .num (-5) ∧
    asciiBuiltins.parseFloat (.str "abc") = .nan ∧
    postProdutos asciiBuiltins "p1" 1000 true none { requisicaoMesa with preco := .str "-5" } =
      (some [{ produtoMesa with preco := some (-5) }],
        .json 201 { produtoMesa with preco := some (-5) }) ∧
    postProdutos asciiBuiltins "p1" 1000 true none { requisicaoMesa with preco := .str "abc" } =
      (some [{ produtoMesa with preco := none }],
        .json 201 { produtoMesa with preco := none }) := by
  refine ⟨by rfl, by rfl, by rfl, by rfl⟩

/-- C9 on the code: a draft whose title is three blanks passes the validation
and is stored with the empty title. -/
theorem postProdutos_titulo_em_branco :
    postProdutos asciiBuiltins "p1" 1000 true none
        { requisicaoMesa with titulo := .str "   " } =
      (some [{ produtoMesa with titulo := "" }],
        .json 201 { produtoMesa with titulo := "" }) := by
  rfl

/-! ## Marking a product as sold -/

/-- The index that `findIndex` returns splits the list at the first element
that satisfies the test. -/
theorem findIndex_eq_some {α : Type} (f : α → Bool) :
    ∀ (l : List α) (i : Nat), findIndex f l = some i →
      ∃ (l1 : List α) (a : α) (l2 : List α),
        l = l1 ++ a :: l2 ∧ (∀ x ∈ l1, f x = false) ∧ f a = true ∧ i = l1.length
  | [], i, h => by simp [findIndex] at h
  | a :: l, i, h => by
    unfold findIndex at h
    by_cases ha : f a = true
    · rw [if_pos ha] at h
      refine ⟨[], a, l, rfl, by simp, ha, ?_⟩
      simpa using (Option.some.inj h).symm
    · rw [if_neg ha] at h
      cases hj : findIndex f l with
      | none => simp [hj] at h
      | some j =>
        rw [hj] at h
        obtain ⟨l1, x, l2, hl, hl1, hx, hlen⟩ := findIndex_eq_some f l j hj
        refine ⟨a :: l1, x, l2, by rw [hl]; rfl, ?_, hx, ?_⟩
        · intro y hy
          rcases List.mem_cons.mp hy with rfl | hy'
          · simpa using ha
          · exact hl1 y hy'
        · have : j + 1 = i := by simpa using h
          simp [← this, hlen]

theorem modify_append_cons {α : Type} (f : α → α) (a : α) (l2 : List α) :
    ∀ l1 : List α, (l1 ++ a :: l2).modify f l1.length = l1 ++ f a :: l2
  | [] => rfl
  | x :: l1 => by
    have ih := modify_append_cons f a l2 l1
    simpa using ih

/-- An answer 200 of `PUT /api/produtos/:id/vendido` comes with the file in
which the first product with the identifier is marked, and nothing else is
changed. -/
theorem putVendido_eq_200 (agora : Int) (gravou : Bool) (db db' : DbFile) (id : String)
    (h : putVendido agora gravou db id = (db', .json 200 ())) :
    ∃ (l1 : List Produto) (a : Produto) (l2 : List Produto),
      lerProdutos db = l1 ++ a :: l2 ∧ (∀ x ∈ l1, x.id ≠ id) ∧ a.id = id ∧
      db' = some (l1 ++ marcarVendido agora a :: l2) := by
  unfold putVendido salvarProdutos at h
  cases hi : findIndex (fun p => p.id == id) (lerProdutos db) with
  | none => simp [hi] at h
  | some i =>
    obtain ⟨l1, a, l2, hl, hl1, ha, hlen⟩ := findIndex_eq_some _ _ i hi
    refine ⟨l1, a, l2, hl, ?_, by simpa using ha, ?_⟩
    · intro x hx
      simpa using hl1 x hx
    · cases gravou
      · simp [hi] at h
      · simp only [hi, if_true, Prod.mk.injEq, and_true] at h
        rw [← h, hl, hlen, modify_append_cons]

/-- C3: on a collection with pairwise distinct identifiers, after a retire of
`id` that succeeds, `get(id)` answers 404, no listing returned by `listActive`
has the identifier `id`, and every listing with another identifier that was
active before is still returned by `listActive`. -/
theorem putVendido_hides (agora : Int) (gravou : Bool) (db db' : DbFile) (id : String)
    (hnd : ((lerProdutos db).map Produto.id).Nodup)
    (h : putVendido agora gravou db id = (db', .json 200 ())) :
    getProdutoPorId db' id = .erro 404 ∧
    (∀ p ∈ produtosAtivos (lerProdutos db'), p.id ≠ id) ∧
    (∀ p ∈ lerProdutos db, p.ativo ≠ some false → p.id ≠ id →
      p ∈ produtosAtivos (lerProdutos db')) := by
  obtain ⟨l1, a, l2, hl, hl1, ha, rfl⟩ := putVendido_eq_200 agora gravou db db' id h
  rw [hl] at hnd
  have hl2 : ∀ x ∈ l2, x.id ≠ id := by
    intro x hx hxid
    have hnd' : (a.id :: l2.map Produto.id).Nodup := by
      have := hnd
      rw [List.map_append, List.map_cons] at this
      exact (List.nodup_append.mp this).2.1
    exact (List.nodup_cons.mp hnd').1 (by rw [ha, ← hxid]; exact List.mem_map_of_mem _ hx)
  refine ⟨?_, ?_, ?_⟩
  · have hnone : l1.find? (fun x => x.id == id) = none := by
      rw [List.find?_eq_none]
      intro x hx
      simpa using hl1 x hx
    unfold getProdutoPorId lerProdutos
    simp [List.find?_append, hnone, marcarVendido, ha]
  · intro p hp hpid
    unfold produtosAtivos at hp
    have hp' := List.mem_filter.mp (mem_sortPorData.mp hp)
    simp only [lerProdutos, List.mem_append, List.mem_cons] at hp'
    rcases hp'.1 with h1 | rfl | h2
    · exact hl1 p h1 hpid
    · simp [estaAtivo, marcarVendido] at hp'
    · exact hl2 p h2 hpid
  · intro p hp hat hpid
    unfold produtosAtivos
    rw [mem_sortPorData, List.mem_filter]
    rw [hl] at hp
    simp only [List.mem_append, List.mem_cons] at hp
    refine ⟨?_, by simpa [estaAtivo] using hat⟩
    simp only [lerProdutos, List.mem_append, List.mem_cons]
    rcases hp with h1 | rfl | h2
    · exact Or.inl h1
    · exact absurd ha hpid
    · exact Or.inr (Or.inr h2)

/-- The scenario of the specification: once the table is retired it is not
found by its identifier and the list of active listings is empty. -/
theorem putVendido_hides_witness :
    putVendido 2000 true (some [produtoMesa]) "p1" =
      (some [{ produtoMesa with ativo := some false, vendidoEm := some 2000 }], .json 200 ()) ∧
    getProdutoPorId (some [{ produtoMesa with ativo := some false, vendidoEm := some 2000 }])
      "p1" = .erro 404 ∧
    (∀ p ∈ produtosAtivos (lerProdutos
        (some [{ produtoMesa with ativo := some false, vendidoEm := some 2000 }])),
      p.id ≠ "p1") ∧
    (∀ p ∈ lerProdutos (some [produtoMesa]), p.ativo ≠ some false → p.id ≠ "p1" →
      p ∈ produtosAtivos (lerProdutos
        (some [{ produtoMesa with ativo := some false, vendidoEm := some 2000 }]))) :=
  ⟨by rfl,
    putVendido_hides 2000 true (some [produtoMesa])
      (some [{ produtoMesa with ativo := some false, vendidoEm := some 2000 }]) "p1"
      (by decide) (by rfl)⟩

/-- C2 on the code: the table is retired with success, and a second retire of
the same identifier on the resulting file is answered 200 again (not 404) and
replaces the sold timestamp. -/
theorem putVendido_twice :
    putVendido 2000 true (some [produtoMesa]) "p1" =
      (some [{ produtoMesa with ativo := some false, vendidoEm := some 2000 }], .json 200 ()) ∧
    putVendido 3000 true
        (some [{ produtoMesa with ativo := some false, vendidoEm := some 2000 }]) "p1" =
      (some [{ produtoMesa with ativo := some false, vendidoEm := some 3000 }], .json 200 ()) := by
  exact ⟨by rfl, by rfl⟩

/-! ## The sold timestamp and the active flag -/

/-- C8: in every collection reached from an empty one by successful create and
retire requests, a listing has a sold timestamp if and only if its active flag
is `false`. -/
theorem alcancavel_vendidoEm_iff (b : Builtins) (db : DbFile) (h : Alcancavel b db) :
    ∀ p ∈ lerProdutos db, p.vendidoEm ≠ none ↔ p.ativo = some false := by
  induction h with
  | vazio db hvazio =>
    intro p hp
    rw [hvazio] at hp
    exact absurd hp (List.not_mem_nil p)
  | criar db db' uuid agora req q _ hpost ih =>
    obtain ⟨hq, rfl⟩ := postProdutos_eq_201 b uuid agora true db db' req q hpost
    obtain ⟨_, _, hat, hve⟩ := novoProduto_eq_some b uuid agora req q hq
    intro p hp
    simp only [lerProdutos, List.mem_append, List.mem_singleton] at hp
    rcases hp with hp | rfl
    · exact ih p hp
    · simp [hat, hve]
  | vender db db' agora id _ hput ih =>
    obtain ⟨l1, a, l2, hl, _, _, rfl⟩ := putVendido_eq_200 agora true db db' id hput
    intro p hp
    simp only [lerProdutos, List.mem_append, List.mem_cons] at hp
    rcases hp with h1 | rfl | h2
    · exact ih p (by rw [hl]; simp [h1])
    · simp [marcarVendido]
    · exact ih p (by rw [hl]; simp [h2])

/-- The collection of the scenario, after the create and the retire, is
reachable, and its only listing has a sold timestamp and is not active. -/
theorem alcancavel_vendidoEm_iff_witness :
    Alcancavel asciiBuiltins
      (some [{ produtoMesa with ativo := some false, vendidoEm := some 2000 }]) ∧
    ∀ p ∈ lerProdutos (some [{ produtoMesa with ativo := some false, vendidoEm := some 2000 }]),
      p.vendidoEm ≠ none ↔ p.ativo = some false :=
  have hr : Alcancavel asciiBuiltins
      (some [{ produtoMesa with ativo := some false, vendidoEm := some 2000 }]) :=
    Alcancavel.vender (some [produtoMesa]) _ 2000 "p1"
      (Alcancavel.criar none (some [produtoMesa]) "p1" 1000 requisicaoMesa produtoMesa
        (Alcancavel.vazio none rfl) (by rfl))
      (by rfl)
  ⟨hr, alcancavel_vendidoEm_iff asciiBuiltins _ hr⟩

/-! ## The search as a restriction of the list of active products -/

/-- C7: the search with a query that is empty or absent and a category that is
`"todos"` or absent answers 200 with the same sequence as the list of the
active products. -/
theorem getBuscar_eq_getProdutos (b : Builtins) (db : DbFile) (q categoria : Option String)
    (hq : q = none ∨ q = some "") (hc : categoria = none ∨ categoria = some "todos") :
    getBuscar b db q categoria = .json 200 (produtosAtivos (lerProdutos db)) ∧
    getBuscar b db q categoria = getProdutos db := by
  have h : buscar b (lerProdutos db) q categoria = produtosAtivos (lerProdutos db) :=
    buscar_sem_filtro b (lerProdutos db) q categoria hq
      (hc.elim Or.inl (fun h => Or.inr (Or.inr h)))
  unfold getBuscar getProdutos
  rw [h]
  exact ⟨rfl, rfl⟩

/-- The search for the empty query in the category `"todos"` on the file of the
scenario answers as the list of active products does. -/
theorem getBuscar_eq_getProdutos_witness :
    getBuscar asciiBuiltins (some [produtoMesa]) (some "") (some "todos") =
      .json 200 (produtosAtivos (lerProdutos (some [produtoMesa]))) ∧
    getBuscar asciiBuiltins (some [produtoMesa]) (some "") (some "todos") =
      getProdutos (some [produtoMesa]) :=
  getBuscar_eq_getProdutos asciiBuiltins (some [produtoMesa]) (some "") (some "todos")
    (Or.inr rfl) (Or.inr rfl)

/-- C6, amended: for a non-empty query `q` and a non-empty category `c` other
than `"todos"`, the search is the list of active products restricted, in the
same order, to the listings whose lower-cased title, description or seller
contains the lower-cased `q` and whose category is `c`; with `q` alone (the
category absent, empty or `"todos"`) only the text condition applies, with `c`
alone (the query absent or empty) only the category condition; and the query
`"BICICLETA"` finds an active listing titled `"Bicicleta usada"`. -/
theorem buscar_eq_filter_produtosAtivos (b : Builtins) (produtos : List Produto) (q c : String)
    (hq : q ≠ "") (hc : c ≠ "todos") (hc' : c ≠ "") :
    buscar b produtos (some q) (some c) =
      (produtosAtivos produtos).filter
        (fun p => decide (CasaTexto b q p ∧ p.categoria = .str c)) ∧
    (∀ categoria : Option String,
      categoria = none ∨ categoria = some "" ∨ categoria = some "todos" →
      buscar b produtos (some q) categoria =
        (produtosAtivos produtos).filter (fun p => decide (CasaTexto b q p))) ∧
    (∀ consulta : Option String, consulta = none ∨ consulta = some "" →
      buscar b produtos consulta (some c) =
        (produtosAtivos produtos).filter (fun p => decide (p.categoria = .str c))) ∧
    (b.toLowerCase "BICICLETA" = "bicicleta" →
      b.toLowerCase "Bicicleta usada" = "bicicleta usada" →
      ∀ p ∈ produtos, p.ativo ≠ some false → p.titulo = "Bicicleta usada" →
        p ∈ buscar b produtos (some "BICICLETA") none) := by
  refine ⟨buscar_texto_categoria b produtos q c hq hc' hc,
    fun categoria hcat => buscar_texto b produtos q categoria hq hcat,
    fun consulta hcons => buscar_categoria b produtos consulta c hcons hc' hc, ?_⟩
  intro hlq hlt p hp hat htit
  rw [buscar_texto b produtos "BICICLETA" none (by decide) (Or.inl rfl), List.mem_filter]
  refine ⟨?_, ?_⟩
  · unfold produtosAtivos
    rw [mem_sortPorData, List.mem_filter]
    exact ⟨hp, by simpa [estaAtivo] using hat⟩
  · have hsub : Subcadeia "bicicleta" "bicicleta usada" := by decide
    simp only [decide_eq_true_eq, CasaTexto, hlq, htit, hlt]
    exact Or.inl hsub

/-- The query `"MESA"` in the category `"outros"` finds the table of the
scenario. -/
theorem buscar_eq_filter_produtosAtivos_witness :
    buscar asciiBuiltins [produtoMesa] (some "MESA") (some "outros") = [produtoMesa] ∧
    buscar asciiBuiltins [produtoMesa] (some "MESA") (some "outros") =
      (produtosAtivos [produtoMesa]).filter
        (fun p => decide (CasaTexto asciiBuiltins "MESA" p ∧ p.categoria = .str "outros")) :=
  ⟨by rfl,
    (buscar_eq_filter_produtosAtivos asciiBuiltins [produtoMesa] "MESA" "outros"
      (by decide) (by decide) (by decide)).1⟩

/-- C6 as stated fails on the empty category: for the query `"mesa"` and the
category `""`, which is not `"todos"`, the search returns the table although
its category is `"outros"`, and the restriction of the list of active products
to the category `""` is empty. -/
theorem buscar_categoria_vazia :
    buscar asciiBuiltins [produtoMesa] (some "mesa") (some "") = [produtoMesa] ∧
    (produtosAtivos [produtoMesa]).filter
      (fun p => decide (CasaTexto asciiBuiltins "mesa" p ∧ p.categoria = .str "")) = [] ∧
    "mesa" ≠ "" ∧ "" ≠ "todos" := by
  refine ⟨by rfl, by rfl, by decide, by decide⟩

/-! ## Concurrent creates -/

theorem novoDaChamada_eq (b : Builtins) (g : Gerador) (chamadas : List Chamada) (i : Nat)
    (c : Chamada) (hc : chamadas[i]? = some c) :
    novoDaChamada b g chamadas i = novoProduto b (g.uuidv4 i) c.agora c.req := by
  simp [novoDaChamada, hc]

/-- The read of a call followed at once by its write does to the file what
`postProdutos` does, and the call gets the answer of `postProdutos`. -/
theorem passo_ler_gravar (b : Builtins) (g : Gerador) (chamadas : List Chamada) (e : Estado)
    (i : Nat) (c : Chamada) (hc : chamadas[i]? = some c) :
    (passo b g chamadas (passo b g chamadas e (.ler i)) (.gravar i)).db =
      (postProdutos b (g.uuidv4 i) c.agora c.gravou e.db c.req).1 ∧
    (passo b g chamadas (passo b g chamadas e (.ler i)) (.gravar i)).respostas i =
      some (postProdutos b (g.uuidv4 i) c.agora c.gravou e.db c.req).2 ∧
    ∀ j, j ≠ i →
      (passo b g chamadas (passo b g chamadas e (.ler i)) (.gravar i)).respostas j =
        e.respostas j := by
  have hn := novoDaChamada_eq b g chamadas i c hc
  by_cases hf : faltaCampo c.req = true
  · refine ⟨?_, ?_, ?_⟩ <;> simp [passo, hc, hf, postProdutos]
    intro j hj
    simp [Function.update, hj]
  · cases hnovo : novoProduto b (g.uuidv4 i) c.agora c.req with
    | none =>
      rw [hnovo] at hn
      refine ⟨?_, ?_, ?_⟩ <;> simp [passo, hc, hf, hn, hnovo, postProdutos]
      intro j hj
      simp [Function.update, hj]
    | some novo =>
      rw [hnovo] at hn
      cases hg : c.gravou <;>
        refine ⟨?_, ?_, ?_⟩ <;>
        simp [passo, hc, hf, hn, hnovo, hg, postProdutos, salvarProdutos] <;>
        intro j hj <;> simp [Function.update, hj]

/-- Calls with valid drafts and successful writes that run one after the other
append their products in that order; each is answered 201 with its product,
and the answers of the other calls stay as they are. -/
theorem executar_emSerie (b : Builtins) (g : Gerador) (chamadas : List Chamada) :
    ∀ (ordem : List Nat) (e : Estado),
      (∀ i ∈ ordem, ∃ c p, chamadas[i]? = some c ∧ faltaCampo c.req = false ∧
        c.gravou = true ∧ novoProduto b (g.uuidv4 i) c.agora c.req = some p) →
      lerProdutos (executar b g chamadas e (emSerie ordem)).db =
        lerProdutos e.db ++ ordem.filterMap (novoDaChamada b g chamadas) ∧
      (∀ j, j ∉ ordem →
        (executar b g chamadas e (emSerie ordem)).respostas j = e.respostas j) ∧
      (ordem.Nodup → ∀ i ∈ ordem,
        (executar b g chamadas e (emSerie ordem)).respostas i =
          (novoDaChamada b g chamadas i).map (Resposta.json 201))
  | [], e, _ => by simp [emSerie, executar]
  | i :: ordem, e, h => by
    obtain ⟨c, p, hc, hv, hg, hp⟩ := h i (List.mem_cons_self i ordem)
    obtain ⟨ihdb, ihout, ihin⟩ := executar_emSerie b g chamadas ordem
      (passo b g chamadas (passo b g chamadas e (.ler i)) (.gravar i))
      (fun j hj => h j (List.mem_cons_of_mem i hj))
    obtain ⟨hdb, hri, hrj⟩ := passo_ler_gravar b g chamadas e i c hc
    rw [hg, postProdutos_of_campos b (g.uuidv4 i) c.agora e.db c.req p hv hp] at hdb hri
    have hnovo : novoDaChamada b g chamadas i = some p := by
      rw [novoDaChamada_eq b g chamadas i c hc, hp]
    simp only [emSerie, executar, List.foldl_cons] at ihdb ihout ihin ⊢
    refine ⟨?_, ?_, ?_⟩
    · rw [ihdb, hdb]
      simp [lerProdutos, hnovo]
    · intro j hj
      have hji : j ≠ i := fun hji => hj (hji ▸ List.mem_cons_self i ordem)
      rw [ihout j (fun hmem => hj (List.mem_cons_of_mem i hmem)), hrj j hji]
    · intro hnd k hk
      have hnd' := List.nodup_cons.mp hnd
      rcases List.mem_cons.mp hk with rfl | hk'
      · rw [ihout k hnd'.1, hri, hnovo]
        rfl
      · exact ihin hnd'.2 k hk'

theorem length_filterMap_of_isSome {α β : Type} (f : α → Option β) :
    ∀ l : List α, (∀ a ∈ l, ∃ x, f a = some x) → (l.filterMap f).length = l.length
  | [], _ => rfl
  | a :: l, h => by
    obtain ⟨x, hx⟩ := h a (List.mem_cons_self a l)
    have ih := length_filterMap_of_isSome f l (fun y hy => h y (List.mem_cons_of_mem a hy))
    simp [List.filterMap_cons, hx, ih]

theorem map_filterMap_of_forall {α β γ : Type} (f : α → Option β) (k : β → γ) (u : α → γ) :
    ∀ l : List α, (∀ a ∈ l, ∃ x, f a = some x ∧ k x = u a) →
      (l.filterMap f).map k = l.map u
  | [], _ => rfl
  | a :: l, h => by
    obtain ⟨x, hx, hk⟩ := h a (List.mem_cons_self a l)
    have ih := map_filterMap_of_forall f k u l (fun y hy => h y (List.mem_cons_of_mem a hy))
    simp [List.filterMap_cons, hx, hk, ih]

/-- C10, amended: for every `N`, when `N` create calls with valid drafts (title,
description and seller non-empty texts, price a non-empty text or a non-zero
number) whose writes succeed run one after the other, each reading the file
after the write of the one before, each call produces a distinct identifier,
each is answered 201 with its listing, and all `N` new listings are present in
the file afterwards, after the listings it held before. -/
theorem executar_emSerie_all_present (b : Builtins) (g : Gerador) (chamadas : List Chamada)
    (db : DbFile)
    (hv : ∀ c ∈ chamadas, TextoPresente c.req.titulo ∧ TextoPresente c.req.descricao ∧
      PrecoPresente c.req.preco ∧ TextoPresente c.req.vendedor ∧ c.gravou = true) :
    ∃ novos : List Produto,
      lerProdutos (executar b g chamadas (estadoInicial db)
        (emSerie (List.range chamadas.length))).db = lerProdutos db ++ novos ∧
      novos.length = chamadas.length ∧
      (novos.map Produto.id).Nodup ∧
      ∀ i c, chamadas[i]? = some c →
        ∃ p ∈ novos, p.id = g.uuidv4 i ∧
          novoProduto b (g.uuidv4 i) c.agora c.req = some p ∧
          (executar b g chamadas (estadoInicial db)
            (emSerie (List.range chamadas.length))).respostas i = some (.json 201 p) := by
  have hval : ∀ i ∈ List.range chamadas.length, ∃ c p, chamadas[i]? = some c ∧
      faltaCampo c.req = false ∧ c.gravou = true ∧
      novoProduto b (g.uuidv4 i) c.agora c.req = some p := by
    intro i hi
    have hlt : i < chamadas.length := List.mem_range.mp hi
    obtain ⟨ht, hd, hp, hvd, hg⟩ := hv _ (List.getElem_mem hlt)
    obtain ⟨t, ht1, _⟩ := id ht
    obtain ⟨d, hd1, _⟩ := id hd
    obtain ⟨v, hv1, _⟩ := id hvd
    exact ⟨chamadas[i], _, List.getElem?_eq_getElem hlt,
      faltaCampo_of_presentes _ ht hd hp hvd, hg,
      novoProduto_of_textos b (g.uuidv4 i) _ _ t d v ht1 hd1 hv1⟩
  obtain ⟨hdb, _, hresp⟩ := executar_emSerie b g chamadas (List.range chamadas.length)
    (estadoInicial db) hval
  have hnovo : ∀ i ∈ List.range chamadas.length,
      ∃ p, novoDaChamada b g chamadas i = some p ∧ p.id = g.uuidv4 i := by
    intro i hi
    obtain ⟨c, p, hc, _, _, hp⟩ := hval i hi
    exact ⟨p, by rw [novoDaChamada_eq b g chamadas i c hc, hp],
      (novoProduto_eq_some b _ _ _ p hp).1⟩
  refine ⟨(List.range chamadas.length).filterMap (novoDaChamada b g chamadas), hdb, ?_, ?_, ?_⟩
  · rw [length_filterMap_of_isSome _ _ (fun i hi => (hnovo i hi).imp (fun _ h => h.1)),
      List.length_range]
  · rw [map_filterMap_of_forall _ Produto.id g.uuidv4 _ hnovo]
    exact (List.nodup_range _).map g.distinct
  · intro i c hc
    have hlt : i < chamadas.length := by
      by_contra hge
      rw [List.getElem?_eq_none (Nat.le_of_not_lt hge)] at hc
      cases hc
    have hi : i ∈ List.range chamadas.length := List.mem_range.mpr hlt
    obtain ⟨p, hp, hid⟩ := hnovo i hi
    refine ⟨p, List.mem_filterMap.mpr ⟨i, hi, hp⟩, hid, ?_, ?_⟩
    · rw [← novoDaChamada_eq b g chamadas i c hc, hp]
    · rw [hresp (List.nodup_range _) i hi, hp]
      rfl

/-- Two creates of the scenario's table, one after the other, are both answered
201 and both in the file, under the identifiers `"p"` and `"p1"`. -/
theorem executar_emSerie_all_present_witness :
    Intercalacao 2 (emSerie (List.range 2)) ∧
    lerProdutos (executar asciiBuiltins geradorExemplo chamadasMesa (estadoInicial none)
        (emSerie (List.range 2))).db =
      [{ produtoMesa with id := "p", criadoEm := 500 }, produtoMesa] ∧
    ∃ novos : List Produto,
      lerProdutos (executar asciiBuiltins geradorExemplo chamadasMesa (estadoInicial none)
        (emSerie (List.range chamadasMesa.length))).db = lerProdutos none ++ novos ∧
      novos.length = chamadasMesa.length ∧
      (novos.map Produto.id).Nodup ∧
      ∀ i c, chamadasMesa[i]? = some c →
        ∃ p ∈ novos, p.id = geradorExemplo.uuidv4 i ∧
          novoProduto asciiBuiltins (geradorExemplo.uuidv4 i) c.agora c.req = some p ∧
          (executar asciiBuiltins geradorExemplo chamadasMesa (estadoInicial none)
            (emSerie (List.range chamadasMesa.length))).respostas i = some (.json 201 p) :=
  ⟨by decide, by rfl,
    executar_emSerie_all_present asciiBuiltins geradorExemplo chamadasMesa none
      (by
        intro c hc
        simp only [chamadasMesa, List.mem_cons, List.mem_singleton, List.not_mem_nil,
          or_false] at hc
        rcases hc with rfl | rfl <;>
          exact ⟨⟨"Mesa", rfl, by decide⟩, ⟨"Mesa de madeira", rfl, by decide⟩,
            Or.inl ⟨"150.00", rfl, by decide⟩, ⟨"Ana", rfl, by decide⟩, rfl⟩)⟩

/-- C10 as stated fails for two calls whose reads both come before their
writes: the steps are an interleaving of the two calls, the identifiers are
distinct, both drafts are valid, both writes succeed and both calls are
answered 201, and the file ends with the listing of the second call only. -/
theorem executar_lost_update :
    Intercalacao 2 [.ler 0, .ler 1, .gravar 0, .gravar 1] ∧
    geradorExemplo.uuidv4 0 = "p" ∧ geradorExemplo.uuidv4 1 = "p1" ∧
    (executar asciiBuiltins geradorExemplo chamadasMesa (estadoInicial none)
        [.ler 0, .ler 1, .gravar 0, .gravar 1]).respostas 0 =
      some (.json 201 { produtoMesa with id := "p", criadoEm := 500 }) ∧
    (executar asciiBuiltins geradorExemplo chamadasMesa (estadoInicial none)
        [.ler 0, .ler 1, .gravar 0, .gravar 1]).respostas 1 =
      some (.json 201 produtoMesa) ∧
    (executar asciiBuiltins geradorExemplo chamadasMesa (estadoInicial none)
        [.ler 0, .ler 1, .gravar 0, .gravar 1]).db =
      some [produtoMesa] ∧
    ({ produtoMesa with id := "p", criadoEm := 500 } : Produto) ∉ [produtoMesa] := by
  refine ⟨by decide, by rfl, by rfl, by rfl, by rfl, by rfl, by decide⟩

end Classificados
